import Mathlib

/-!
Verification of the EduPath Optimizer AI core against its specification.

This file gives a shallow embedding, over `ℚ`, of the four core components
of the system (feature engineering, risk prediction, counterfactual
simulation, knowledge-graph risk propagation) as implemented in
`src/backend/ai_engine/`, and proves or refutes the frozen claims about them.

Modelling conventions:
* Python floats are modelled as rationals (`ℚ`); Python's `round(x, n)`
  (round-half-to-even) is modelled exactly by `roundTo`.
* `np.std` takes a square root.  The square root does not influence any
  claim, so the feature extractor is parameterised by an arbitrary
  square-root function `sq : ℚ → ℚ`; every theorem quantifies over it.
* The trained calibrated classifier is an external learned artefact; it is
  modelled as an abstract function `proba : List ℚ → ℚ` from feature
  vectors to calibrated failure probabilities, exactly as the engine
  consumes it.
* Python dicts keyed by course name are modelled as association lists in
  insertion order; Python's stable `list.sort(reverse=True)` is modelled by
  the stable descending insertion sort `sortDescBy`.
-/

namespace EduPath

/-! ### Numeric helpers (numpy / scipy / Python builtins) -/

/-- Arithmetic mean, `np.mean`.  All call sites guard against the empty
list, mirroring the source. -/
def listMean (xs : List ℚ) : ℚ := xs.sum / xs.length

/-- Smallest element, `np.min` (call sites guarantee nonempty input). -/
def npMin : List ℚ → ℚ
  | [] => 0
  | x :: rest => rest.foldl min x

/-- Largest element, `np.max` (call sites guarantee nonempty input). -/
def npMax : List ℚ → ℚ
  | [] => 0
  | x :: rest => rest.foldl max x

/-- Population variance, the quantity under the square root in `np.std`. -/
def listVariance (xs : List ℚ) : ℚ :=
  listMean (xs.map (fun x => (x - listMean xs) ^ 2))

/-- `np.std`: square root of the population variance.  The square root is
an arbitrary parameter `sq`; no claim depends on its values. -/
def npStd (sq : ℚ → ℚ) (xs : List ℚ) : ℚ := sq (listVariance xs)

/-- Stable ascending insertion sort on rationals (used by `npMedian`). -/
def insertAsc (x : ℚ) : List ℚ → List ℚ
  | [] => [x]
  | y :: ys => if x < y then x :: y :: ys else y :: insertAsc x ys

/-- Sort a list of rationals ascending. -/
def sortAsc (l : List ℚ) : List ℚ := l.foldl (fun acc x => insertAsc x acc) []

/-- `np.median`: middle element of the sorted list, or the average of the
two middle elements for even length. -/
def npMedian (xs : List ℚ) : ℚ :=
  let sorted := sortAsc xs
  let n := xs.length
  if n = 0 then 0
  else if n % 2 = 1 then sorted.getD (n / 2) 0
  else (sorted.getD (n / 2 - 1) 0 + sorted.getD (n / 2) 0) / 2

/-- Slope returned by `scipy.stats.linregress(np.arange(n), ys)`:
covariance over variance of the index sequence `0, 1, …, n−1`. -/
def linregressSlope (ys : List ℚ) : ℚ :=
  let xs : List ℚ := (List.range ys.length).map (fun i => (i : ℚ))
  let xbar := listMean xs
  let ybar := listMean ys
  let num := ((xs.zip ys).map (fun p => (p.1 - xbar) * (p.2 - ybar))).sum
  let den := (xs.map (fun x => (x - xbar) ^ 2)).sum
  num / den

/-- Python's banker's rounding to an integer (`round` ties to even). -/
def roundHalfEven (q : ℚ) : ℤ :=
  if q - ⌊q⌋ < 1 / 2 then ⌊q⌋
  else if 1 / 2 < q - ⌊q⌋ then ⌊q⌋ + 1
  else if ⌊q⌋ % 2 = 0 then ⌊q⌋ else ⌊q⌋ + 1

/-- Python's `round(q, digits)`. -/
def roundTo (digits : ℕ) (q : ℚ) : ℚ :=
  (roundHalfEven (q * 10 ^ digits) : ℚ) / 10 ^ digits

/-- `np.clip(x, lo, hi)`. -/
def npClip (x lo hi : ℚ) : ℚ := min (max x lo) hi

/-! ### Data model: student records -/

/-- One entry of `marks_history`: a subject name with its ordered internal
marks. -/
structure SubjectMarks where
  subject : String
  marks : List ℚ
deriving DecidableEq

/-- A raw student record, the input of `FeatureEngineer.extract_features`. -/
structure StudentRecord where
  attendance_history : List ℚ
  marks_history : List SubjectMarks
  current_subjects : List String
  semester : ℤ
  previous_failures : ℤ
deriving DecidableEq

/-! ### FeatureEngineer (`feature_engineering.py`) -/

/-- Number of week-over-week decreases in the attendance sequence
(the `declines` loop of `_extract_attendance_features`). -/
def countDecreases : List ℚ → ℕ
  | a :: b :: rest => (if b < a then 1 else 0) + countDecreases (b :: rest)
  | _ => 0

/-- `FeatureEngineer._extract_attendance_features`. -/
def extract_attendance_features (sq : ℚ → ℚ) (attendance : List ℚ) : List ℚ :=
  if attendance.length < 2 then [0, 0, 0, 0, 0, 0]
  else
    let current := attendance.getLastD 0 / 100
    let trend := linregressSlope attendance / 10
    let volatility := npStd sq attendance / 100
    let recent_mean :=
      if 3 ≤ attendance.length then listMean (attendance.drop (attendance.length - 3))
      else attendance.getLastD 0
    let early_mean :=
      if 3 ≤ attendance.length then listMean (attendance.take 3)
      else attendance.headD 0
    let decline := (early_mean - recent_mean) / 100
    let declineFrac := (countDecreases attendance : ℚ) / (attendance.length : ℚ)
    let min_attendance := npMin attendance / 100
    [current, trend, volatility, decline, declineFrac, min_attendance]

/-- Per-subject statistics gathered by the loop of
`_extract_marks_features`: `(trend, volatility, mean, recent)` for a
subject with at least two recorded scores, `none` otherwise. -/
def subjectStats (sq : ℚ → ℚ) (sm : SubjectMarks) : Option (ℚ × ℚ × ℚ × ℚ) :=
  if sm.marks.length < 2 then none
  else
    let slope := linregressSlope sm.marks
    let vol := npStd sq sm.marks
    let m := listMean sm.marks
    let recent :=
      if 2 ≤ sm.marks.length then listMean (sm.marks.drop (sm.marks.length - 2))
      else sm.marks.getLastD 0
    some (slope, vol, m, recent)

/-- `FeatureEngineer._extract_marks_features`. -/
def extract_marks_features (sq : ℚ → ℚ) (marks_history : List SubjectMarks) : List ℚ :=
  if marks_history.isEmpty then [0, 0, 0, 0, 0, 0, 0, 0]
  else
    let stats := marks_history.filterMap (subjectStats sq)
    let all_trends := stats.map (fun s => s.1)
    let all_volatilities := stats.map (fun s => s.2.1)
    let all_means := stats.map (fun s => s.2.2.1)
    let all_recent := stats.map (fun s => s.2.2.2)
    let avg_trend := if all_trends.isEmpty then 0 else listMean all_trends / 10
    let avg_volatility := if all_volatilities.isEmpty then 0 else listMean all_volatilities / 20
    let avg_performance := if all_means.isEmpty then 0 else listMean all_means / 20
    let recent_performance := if all_recent.isEmpty then 0 else listMean all_recent / 20
    let declining_subjects := (all_trends.filter (fun t => t < -(1 / 2))).length
    let decliningFrac := (declining_subjects : ℚ) / (max marks_history.length 1 : ℕ)
    let performance_range := if all_means.isEmpty then 0 else (npMax all_means - npMin all_means) / 20
    let median_perf := if all_means.isEmpty then 0 else npMedian all_means
    let weak_subjects := (all_means.filter (fun m => m < median_perf)).length
    let weakFrac := (weak_subjects : ℚ) / (max marks_history.length 1 : ℕ)
    [avg_trend, avg_volatility, avg_performance, recent_performance,
      decliningFrac, performance_range, weakFrac, (marks_history.length : ℚ)]

/-- The static `difficulty_map` of `_extract_load_features`. -/
def difficulty_map : List (String × ℚ) :=
  [("Math", 9 / 10), ("Calculus", 95 / 100), ("Linear Algebra", 85 / 100),
   ("Physics", 85 / 100), ("Chemistry", 80 / 100), ("Programming", 88 / 100),
   ("Data Structures", 90 / 100), ("Algorithms", 92 / 100),
   ("Database", 75 / 100), ("Networks", 78 / 100)]

/-- `FeatureEngineer._extract_load_features`. -/
def extract_load_features (subjects : List String) (semester : ℤ) : List ℚ :=
  let subject_count : ℚ := subjects.length
  let semester_factor : ℚ := (semester : ℚ) / 8
  let load_intensity : ℚ := (subjects.length : ℚ) / 6
  let avg_difficulty : ℚ :=
    if subjects.isEmpty then 70 / 100
    else listMean (subjects.map (fun s => ((difficulty_map.lookup s).getD (70 / 100))))
  [subject_count, semester_factor, load_intensity, avg_difficulty]

/-- `FeatureEngineer._extract_engagement_features`. -/
def extract_engagement_features (attendance : List ℚ) (marks_history : List SubjectMarks) :
    List ℚ :=
  let engagement_score :=
    if 3 ≤ attendance.length ∧ ¬marks_history.isEmpty then
      let recent_attendance := listMean (attendance.drop (attendance.length - 3))
      let all_recent_marks := marks_history.filterMap (fun s => s.marks.getLast?)
      let recent_marks := if all_recent_marks.isEmpty then 0 else listMean all_recent_marks
      (recent_attendance / 100) * (recent_marks / 20)
    else 1 / 2
  let data_completeness := min ((attendance.length : ℚ) / 10) 1
  [engagement_score, data_completeness]

/-- `FeatureEngineer.extract_features`: the full 22-slot feature vector. -/
def extract_features (sq : ℚ → ℚ) (r : StudentRecord) : List ℚ :=
  extract_attendance_features sq r.attendance_history
    ++ extract_marks_features sq r.marks_history
    ++ extract_load_features r.current_subjects r.semester
    ++ [(r.previous_failures : ℚ), (r.previous_failures : ℚ) / ((max r.semester 1 : ℤ) : ℚ)]
    ++ extract_engagement_features r.attendance_history r.marks_history

/-! ### RiskPredictor (`risk_predictor.py`) -/

/-- The dictionary returned by `RiskPredictor.predict`. -/
structure PredictionResult where
  failure_probability : ℚ
  confidence : ℚ
  risk_level : String
  prediction : ℤ
deriving DecidableEq

/-- The body of `RiskPredictor.predict` after the calibrated model has
produced the failure probability `failure_prob`. -/
def mkPredictionResult (failure_prob : ℚ) : PredictionResult :=
  let confidence := |failure_prob - 1 / 2| * 2
  let risk_level : String :=
    if failure_prob ≥ 7 / 10 then "high"
    else if failure_prob ≥ 4 / 10 then "medium"
    else "low"
  let prediction : ℤ := if failure_prob ≥ 5 / 10 then 1 else 0
  { failure_probability := roundTo 4 failure_prob
    confidence := roundTo 4 confidence
    risk_level := risk_level
    prediction := prediction }

/-- Mutable state of a `RiskPredictor`.  The fitted models are external
learned artefacts and are abstracted: `proba` is the calibrated model's
`predict_proba(·)[0][1]` and `importances` is `model.feature_importances_`. -/
structure RiskPredictor where
  is_trained : Bool
  proba : List ℚ → ℚ
  importances : List ℚ

/-- `RiskPredictor.predict`: raises `ValueError` when untrained, otherwise
computes the prediction dictionary from the calibrated probability. -/
def RiskPredictor.predict (m : RiskPredictor) (features : List ℚ) :
    Except String PredictionResult :=
  if m.is_trained then .ok (mkPredictionResult (m.proba features))
  else .error "Model not trained. Call train() first or load a trained model."

/-- `RiskPredictor.get_feature_importance`: empty dict when untrained,
otherwise `feature_i ↦ importance`. -/
def RiskPredictor.get_feature_importance (m : RiskPredictor) : List (String × ℚ) :=
  if m.is_trained then
    m.importances.enum.map (fun p => ("feature_" ++ toString p.1, p.2))
  else []

/-! ### CounterfactualEngine (`counterfactual_engine.py`) -/

/-- One entry of the static intervention catalog. -/
structure Intervention where
  name : String
  description : String
  feature_indices : List ℕ
  delta_range : List ℚ
  effort_cost : ℕ
deriving DecidableEq

/-- The static catalog `CounterfactualEngine.interventions`. -/
def interventions : List Intervention :=
  [{ name := "Improve Attendance"
     description := "Attend {delta} more classes consistently"
     feature_indices := [0, 1]
     delta_range := [5 / 100, 10 / 100, 15 / 100, 20 / 100]
     effort_cost := 2 },
   { name := "Boost Internal Marks"
     description := "Improve test scores by {delta} marks on average"
     feature_indices := [8, 9]
     delta_range := [10 / 100, 20 / 100, 30 / 100, 40 / 100]
     effort_cost := 3 },
   { name := "Stabilize Performance"
     description := "Reduce performance volatility and maintain consistency"
     feature_indices := [7, 13]
     delta_range := [-(10 / 100), -(20 / 100), -(30 / 100)]
     effort_cost := 2 },
   { name := "Increase Engagement"
     description := "Improve overall academic engagement"
     feature_indices := [20]
     delta_range := [10 / 100, 20 / 100, 30 / 100]
     effort_cost := 2 }]

/-- The perturbation loop of `_simulate_intervention`: add `delta` to every
targeted slot that is in range, clipping each touched slot to `[0, 1]`;
out-of-range indices are silently skipped. -/
def applyDelta (features : List ℚ) (idxs : List ℕ) (delta : ℚ) : List ℚ :=
  idxs.foldl
    (fun fs idx =>
      if idx < fs.length then fs.set idx (npClip (fs.getD idx 0 + delta) 0 1) else fs)
    features

/-- Replace every occurrence of the placeholder text it scans for in a
character list (model of `str.format` with the single key `delta`). -/
def replaceDelta (v : List Char) : List Char → List Char
  | '\x7b' :: 'd' :: 'e' :: 'l' :: 't' :: 'a' :: '\x7d' :: rest => v ++ replaceDelta v rest
  | c :: rest => c :: replaceDelta v rest
  | [] => []

/-- Substring test, Python's `in` on strings (as used by `_format_delta`
on the catalog's action names). -/
def containsText (s pat : String) : Bool := (s.splitOn pat).length != 1

/-- Render `q` with two decimal places, Python's `f"{q:.2f}"` for
nonnegative `q`. -/
def formatTwoDecimals (q : ℚ) : String :=
  let n := roundHalfEven (q * 100)
  toString (n / 100) ++ "." ++ (if n % 100 < 10 then "0" else "") ++ toString (n % 100)

/-- `CounterfactualEngine._format_delta`. -/
def format_delta (delta : ℚ) (action_name : String) : String :=
  if containsText action_name "Attendance" then toString ⌊|delta| * 100⌋ ++ "%"
  else if containsText action_name "Marks" then toString ⌊|delta| * 20⌋
  else if containsText action_name "Engagement" then toString ⌊|delta| * 100⌋ ++ "%"
  else formatTwoDecimals |delta|

/-- The result dictionary built for one simulated scenario inside
`_simulate_intervention`. -/
structure InterventionResult where
  action : String
  description : String
  current_risk : ℚ
  predicted_risk : ℚ
  risk_reduction : ℚ
  risk_reduction_percent : ℚ
  effort_level : ℕ
  effectiveness_score : ℚ
  confidence : ℚ
deriving DecidableEq

/-- Construction of the scenario dictionary from the raw quantities of one
loop iteration of `_simulate_intervention`. -/
def mkInterventionResult (iv : Intervention) (delta current_risk new_risk risk_red eff conf : ℚ) :
    InterventionResult :=
  { action := iv.name
    description := String.mk (replaceDelta (format_delta delta iv.name).data iv.description.data)
    current_risk := roundTo 4 current_risk
    predicted_risk := roundTo 4 new_risk
    risk_reduction := roundTo 4 risk_red
    risk_reduction_percent := roundTo 1 (risk_red * 100)
    effort_level := iv.effort_cost
    effectiveness_score := roundTo 4 eff
    confidence := conf }

/-- One iteration of the `for delta in intervention['delta_range']` loop of
`_simulate_intervention`, acting on the state
`(best_effectiveness, best_result)`. -/
def simulateStep (proba : List ℚ → ℚ) (current_features : List ℚ) (iv : Intervention)
    (current_risk : ℚ) (st : ℚ × Option InterventionResult) (delta : ℚ) :
    ℚ × Option InterventionResult :=
  let modified := applyDelta current_features iv.feature_indices delta
  let pred := mkPredictionResult (proba modified)
  let new_risk := pred.failure_probability
  let risk_red := current_risk - new_risk
  if risk_red ≤ 0 then st
  else
    let eff := risk_red / (iv.effort_cost : ℚ)
    if st.1 < eff then
      (eff, some (mkInterventionResult iv delta current_risk new_risk risk_red eff pred.confidence))
    else st

/-- `CounterfactualEngine._simulate_intervention`: best scenario of one
intervention across its delta range (`none` when no delta improves). -/
def simulate_intervention (proba : List ℚ → ℚ) (current_features : List ℚ) (iv : Intervention)
    (current_risk : ℚ) : Option InterventionResult :=
  (iv.delta_range.foldl (simulateStep proba current_features iv current_risk) (-1, none)).2

/-- Stable descending insertion sort by a rational key: inserts a later
element after all elements with an equal or larger key.  This is exactly
Python's stable `list.sort(key=…, reverse=True)` (any two stable sorts by
the same key agree). -/
def insertDescBy (key : α → ℚ) (x : α) : List α → List α
  | [] => [x]
  | y :: ys => if key y < key x then x :: y :: ys else y :: insertDescBy key x ys

/-- Sort descending by key, stably. -/
def sortDescBy (key : α → ℚ) (l : List α) : List α :=
  l.foldl (fun acc x => insertDescBy key x acc) []

/-- `CounterfactualEngine.simulate_interventions`: best scenario per
catalog entry, ranked by `effectiveness_score` descending, top 3. -/
def simulate_interventions (sq : ℚ → ℚ) (proba : List ℚ → ℚ) (student_data : StudentRecord)
    (current_risk : ℚ) : List InterventionResult :=
  let current_features := extract_features sq student_data
  let results := interventions.filterMap
    (fun iv => simulate_intervention proba current_features iv current_risk)
  (sortDescBy (fun r => r.effectiveness_score) results).take 3

/-- The outcome dictionary of `find_minimal_safe_path`, one constructor
per `status` value. -/
inductive SafePathOutcome where
  | alreadySafe (current_risk target_risk : ℚ)
  | solutionFound (path : List InterventionResult) (final_risk : ℚ) (total_effort : ℕ)
  | partSolution (path : List InterventionResult) (final_risk : ℚ) (total_effort : ℕ)
      (note : String)
  | noSolution (current_risk : ℚ)
deriving DecidableEq

/-- The `for intervention in interventions` scan of
`find_minimal_safe_path`: first ranked result whose predicted risk is at
or below the target. -/
def scanForSolution (target_risk : ℚ) : List InterventionResult → Option InterventionResult
  | [] => none
  | iv :: rest => if iv.predicted_risk ≤ target_risk then some iv else scanForSolution target_risk rest

/-- `CounterfactualEngine.find_minimal_safe_path`.  The second component
counts how many times `simulate_interventions` was invoked (0 or 1),
mirroring the control flow of the source. -/
def find_minimal_safe_path (sq : ℚ → ℚ) (proba : List ℚ → ℚ) (student_data : StudentRecord)
    (target_risk : ℚ) : SafePathOutcome × ℕ :=
  let current_features := extract_features sq student_data
  let current_prediction := mkPredictionResult (proba current_features)
  let current_risk := current_prediction.failure_probability
  if current_risk ≤ target_risk then (.alreadySafe current_risk target_risk, 0)
  else
    let ivs := simulate_interventions sq proba student_data current_risk
    match scanForSolution target_risk ivs with
    | some iv => (.solutionFound [iv] iv.predicted_risk iv.effort_level, 1)
    | none =>
      match ivs with
      | best :: _ =>
        (.partSolution [best] best.predicted_risk best.effort_level
          "Multiple interventions may be needed to reach target safety level", 1)
      | [] => (.noSolution current_risk, 1)

/-! ### KnowledgeGraph (`knowledge_graph.py`) -/

/-- A directed dependency graph: edges `(prerequisite, course, strength)`.
Nodes are the edge endpoints (`nx.DiGraph.add_edge` creates its
endpoints; the class adds nodes only through edges). -/
structure KnowledgeGraph where
  edges : List (String × String × ℚ)
deriving DecidableEq

/-- The node set of the graph, in first-appearance order. -/
def nodesOf (g : KnowledgeGraph) : List String :=
  (g.edges.foldr (fun e acc => e.1 :: e.2.1 :: acc) []).dedup

/-- `graph.successors(c)` with edge strengths. -/
def successors (g : KnowledgeGraph) (c : String) : List (String × ℚ) :=
  (g.edges.filter (fun e => e.1 == c)).map (fun e => e.2)

/-- The hard-coded default topology of `_initialize_default_graph`. -/
def default_graph : KnowledgeGraph :=
  ⟨[("Calculus I", "Calculus II", 90 / 100),
    ("Calculus II", "Calculus III", 85 / 100),
    ("Calculus I", "Linear Algebra", 70 / 100),
    ("Linear Algebra", "Differential Equations", 80 / 100),
    ("Programming Fundamentals", "Data Structures", 95 / 100),
    ("Data Structures", "Algorithms", 90 / 100),
    ("Programming Fundamentals", "Object Oriented Programming", 85 / 100),
    ("Data Structures", "Database Systems", 70 / 100),
    ("Physics I", "Physics II", 85 / 100),
    ("Calculus I", "Physics I", 75 / 100),
    ("Physics II", "Quantum Mechanics", 80 / 100),
    ("Calculus I", "Probability and Statistics", 70 / 100),
    ("Programming Fundamentals", "Machine Learning", 80 / 100),
    ("Linear Algebra", "Machine Learning", 85 / 100),
    ("Algorithms", "Advanced Algorithms", 90 / 100),
    ("Chemistry", "Organic Chemistry", 85 / 100),
    ("Physics I", "Thermodynamics", 75 / 100),
    ("Calculus II", "Engineering Mathematics", 80 / 100)]⟩

/-- Update the accumulated risk dict: `max` with the existing value if the
key is present, insert otherwise (`propagate_risk`'s dict update). -/
def updateMax (acc : List (String × ℚ)) (k : String) (v : ℚ) : List (String × ℚ) :=
  match acc with
  | [] => [(k, v)]
  | kv :: rest => if kv.1 = k then (kv.1, max kv.2 v) :: rest else kv :: updateMax rest k v

/-- The `for dependent in successors(current)` body of `propagate_risk`:
threads the accumulated dict through the successor list and collects the
queue entries pushed for values exceeding the `0.2` pruning threshold. -/
def stepSuccs (sucs : List (String × ℚ)) (r : ℚ) (acc : List (String × ℚ)) :
    List (String × ℚ) × List (String × ℚ) :=
  match sucs with
  | [] => (acc, [])
  | (dep, s) :: rest =>
    let propagated := r * s * (8 / 10)
    let acc1 := updateMax acc dep propagated
    let next := stepSuccs rest r acc1
    (next.1, (if propagated > 2 / 10 then [(dep, propagated)] else []) ++ next.2)

/-- Number of graph nodes not yet visited (the BFS termination measure's
first component). -/
def unvisitedCount (g : KnowledgeGraph) (visited : List String) : ℕ :=
  ((nodesOf g).filter (fun n => n ∉ visited)).length

theorem fst_mem_endpoints {l : List (String × String × ℚ)} {e : String × String × ℚ}
    (he : e ∈ l) : e.1 ∈ l.foldr (fun e acc => e.1 :: e.2.1 :: acc) [] := by
  induction l with
  | nil => cases he
  | cons a as ih =>
    rcases List.mem_cons.mp he with rfl | he2
    · simp
    · simp [ih he2]

theorem successors_ne_nil_mem_nodesOf {g : KnowledgeGraph} {c : String}
    (h : successors g c ≠ []) : c ∈ nodesOf g := by
  have h2 : g.edges.filter (fun e => e.1 == c) ≠ [] := by
    intro hnil; exact h (by simp [successors, hnil])
  obtain ⟨e, he⟩ := List.exists_mem_of_ne_nil _ h2
  have he2 := List.mem_filter.mp he
  have hc : e.1 = c := by simpa using he2.2
  have h3 := fst_mem_endpoints he2.1
  rw [hc] at h3
  simpa [nodesOf, List.mem_dedup] using h3

theorem unvisitedCount_cons_le (g : KnowledgeGraph) (c : String) (visited : List String) :
    unvisitedCount g (c :: visited) ≤ unvisitedCount g visited := by
  unfold unvisitedCount
  apply List.Sublist.length_le
  apply List.monotone_filter_right
  intro x hx
  simp only [decide_eq_true_eq, List.mem_cons, not_or] at hx ⊢
  exact hx.2

theorem unvisitedCount_cons_lt (g : KnowledgeGraph) (c : String) (visited : List String)
    (hmem : c ∈ nodesOf g) (hnv : c ∉ visited) :
    unvisitedCount g (c :: visited) < unvisitedCount g visited := by
  unfold unvisitedCount
  have hsub : ((nodesOf g).filter (fun n => n ∉ c :: visited)).Sublist
      (((nodesOf g).filter (fun n => n ∉ visited)).filter (fun n => n ≠ c)) := by
    rw [List.filter_filter]
    apply List.monotone_filter_right
    intro x hx
    simp only [List.mem_cons, not_or, decide_eq_true_eq, Bool.and_eq_true] at hx ⊢
    exact ⟨by simpa using hx.1, by simpa using hx.2⟩
  calc ((nodesOf g).filter (fun n => n ∉ c :: visited)).length
      ≤ (((nodesOf g).filter (fun n => n ∉ visited)).filter (fun n => n ≠ c)).length :=
        hsub.length_le
    _ < ((nodesOf g).filter (fun n => n ∉ visited)).length := by
        apply List.length_filter_lt_length_iff_exists.mpr
        exact ⟨c, List.mem_filter.mpr ⟨hmem, by simpa using hnv⟩, by simp⟩

theorem unvisitedCount_cons_eq (g : KnowledgeGraph) (c : String) (visited : List String)
    (hmem : c ∉ nodesOf g) :
    unvisitedCount g (c :: visited) = unvisitedCount g visited := by
  unfold unvisitedCount
  congr 1
  apply List.filter_congr
  intro x hx
  simp only [List.mem_cons, not_or, decide_eq_true_eq, decide_eq_decide]
  constructor
  · intro hand; exact hand.2
  · intro hnv; exact ⟨fun hxc => hmem (hxc ▸ hx), hnv⟩

theorem bfsPropagate_dec (g : KnowledgeGraph) (visited : List String) (c : String) (r : ℚ)
    (rest acc : List (String × ℚ)) (hnv : c ∉ visited) :
    Prod.Lex (· < ·) (· < ·)
      (unvisitedCount g (c :: visited),
        (rest ++ (stepSuccs (successors g c) r acc).2).length)
      (unvisitedCount g visited, ((c, r) :: rest).length) := by
  rcases Decidable.em (c ∈ nodesOf g) with hmem | hmem
  · exact Prod.Lex.left _ _ (unvisitedCount_cons_lt g c visited hmem hnv)
  · have hsucc : successors g c = [] := by
      by_contra h
      exact hmem (successors_ne_nil_mem_nodesOf h)
    rw [unvisitedCount_cons_eq g c visited hmem]
    apply Prod.Lex.right
    simp [hsucc, stepSuccs]

/-- The `while queue:` BFS loop of `propagate_risk`.  Terminates because
each iteration either visits a fresh node or shortens the queue. -/
def bfsPropagate (g : KnowledgeGraph) (visited : List String) (queue acc : List (String × ℚ)) :
    List (String × ℚ) :=
  match queue with
  | [] => acc
  | (c, r) :: rest =>
    if c ∈ visited then bfsPropagate g visited rest acc
    else
      let next := stepSuccs (successors g c) r acc
      bfsPropagate g (c :: visited) (rest ++ next.2) next.1
  termination_by (unvisitedCount g visited, queue.length)
  decreasing_by
  · exact Prod.Lex.right _ (by simp)
  · exact bfsPropagate_dec _ _ _ _ _ _ (by assumption)

/-- `KnowledgeGraph.propagate_risk`: BFS forward propagation with decay
`0.8`, pessimistic `max` accumulation, `0.2` pruning, and removal of the
source course from the final dict. -/
def propagate_risk (g : KnowledgeGraph) (failed_course : String) (failure_risk : ℚ) :
    List (String × ℚ) :=
  if failed_course ∈ nodesOf g then
    (bfsPropagate g [] [(failed_course, failure_risk)] []).filter
      (fun kv => kv.1 ≠ failed_course)
  else []

/-- Nodes reachable from `u` by at most `k` edges (used to model
`networkx` path queries on this finite graph). -/
def reachUpTo (g : KnowledgeGraph) (u : String) : ℕ → List String
  | 0 => [u]
  | k + 1 =>
    let prev := reachUpTo g u k
    (prev ++ prev.flatMap (fun c => (successors g c).map (fun s => s.1))).dedup

/-- `nx.has_path(graph, u, v)`: reachability (any path has length at most
the number of nodes). -/
def hasPathB (g : KnowledgeGraph) (u v : String) : Bool :=
  v ∈ reachUpTo g u (nodesOf g).length

/-- `nx.shortest_path_length(graph, u, v)`: the least number of edges of
any path from `u` to `v`. -/
def shortestPathLen (g : KnowledgeGraph) (u v : String) : Option ℕ :=
  (List.range ((nodesOf g).length + 1)).find? (fun k => v ∈ reachUpTo g u k)

/-- `KnowledgeGraph.calculate_dependency_depth`: maximum over all other
nodes with a path to `course` of the **shortest**-path length from that
node to `course` (0 for unknown courses or courses with no ancestors). -/
def calculate_dependency_depth (g : KnowledgeGraph) (course : String) : ℕ :=
  if course ∈ nodesOf g then
    let paths := (nodesOf g).filterMap (fun node =>
      if node ≠ course ∧ hasPathB g node course then shortestPathLen g node course else none)
    paths.foldr max 0
  else 0

/-- `chainInG g [a, b, c, …]` holds when consecutive entries are edges of
`g`: the list is a path of the graph. -/
def chainInG (g : KnowledgeGraph) : List String → Bool
  | a :: b :: rest => g.edges.any (fun e => e.1 == a && e.2.1 == b) && chainInG g (b :: rest)
  | _ => true

/-! ### Derived observers used to state the claims -/

/-- The (rounded) probability the predictor reports for the features
perturbed by intervention `iv` at magnitude `delta`
(`prediction['failure_probability']` inside `_simulate_intervention`). -/
def rawNewRisk (proba : List ℚ → ℚ) (features : List ℚ) (iv : Intervention) (delta : ℚ) : ℚ :=
  (mkPredictionResult (proba (applyDelta features iv.feature_indices delta))).failure_probability

/-- `risk_reduction` as computed inside the loop, before its final
rounding for the result dictionary. -/
def rawRiskReduction (proba : List ℚ → ℚ) (features : List ℚ) (iv : Intervention)
    (current_risk delta : ℚ) : ℚ :=
  current_risk - rawNewRisk proba features iv delta

/-- `effectiveness` as computed inside the loop, before its final
rounding for the result dictionary. -/
def rawEffectiveness (proba : List ℚ → ℚ) (features : List ℚ) (iv : Intervention)
    (current_risk delta : ℚ) : ℚ :=
  rawRiskReduction proba features iv current_risk delta / (iv.effort_cost : ℚ)

/-- The result dictionary that `_simulate_intervention` builds when the
scenario at magnitude `delta` is kept. -/
def scenarioAt (proba : List ℚ → ℚ) (features : List ℚ) (iv : Intervention)
    (current_risk delta : ℚ) : InterventionResult :=
  mkInterventionResult iv delta current_risk (rawNewRisk proba features iv delta)
    (rawRiskReduction proba features iv current_risk delta)
    (rawEffectiveness proba features iv current_risk delta)
    (mkPredictionResult (proba (applyDelta features iv.feature_indices delta))).confidence

/-- Invariant of the delta loop of `_simulate_intervention` after the
magnitudes of `S` have been processed: either nothing improved yet and
the state is the initial `(-1, None)`, or the state is the scenario of
some improving magnitude of `S` of maximal effectiveness. -/
def LoopInv (proba : List ℚ → ℚ) (features : List ℚ) (iv : Intervention) (current_risk : ℚ)
    (S : List ℚ) (st : ℚ × Option InterventionResult) : Prop :=
  (st = (-1, none) ∧ ∀ δ ∈ S, rawRiskReduction proba features iv current_risk δ ≤ 0) ∨
  (∃ δ ∈ S, 0 < rawRiskReduction proba features iv current_risk δ ∧
    st = (rawEffectiveness proba features iv current_risk δ,
      some (scenarioAt proba features iv current_risk δ)) ∧
    ∀ δ2 ∈ S, 0 < rawRiskReduction proba features iv current_risk δ2 →
      rawEffectiveness proba features iv current_risk δ2 ≤
        rawEffectiveness proba features iv current_risk δ)

/-! ## Theorems -/

/-! ### Generic lemmas about the helpers -/

theorem roundHalfEven_le_ceil (q : ℚ) : roundHalfEven q ≤ ⌈q⌉ := by
  unfold roundHalfEven
  have hfc := Int.floor_le_ceil q
  split_ifs with h1 h2 h3
  · exact hfc
  · have hlt : (⌊q⌋ : ℚ) < q := by linarith
    exact Int.add_one_le_iff.mpr (Int.lt_ceil.mpr hlt)
  · exact hfc
  · have hlt : (⌊q⌋ : ℚ) < q := by linarith
    exact Int.add_one_le_iff.mpr (Int.lt_ceil.mpr hlt)

theorem floor_le_roundHalfEven (q : ℚ) : ⌊q⌋ ≤ roundHalfEven q := by
  unfold roundHalfEven
  split_ifs <;> omega

theorem roundTo_nonneg (n : ℕ) (q : ℚ) (h0 : 0 ≤ q) : 0 ≤ roundTo n q := by
  unfold roundTo
  apply div_nonneg _ (by positivity)
  have h1 : (0 : ℤ) ≤ ⌊q * 10 ^ n⌋ := Int.floor_nonneg.mpr (by positivity)
  have h2 := floor_le_roundHalfEven (q * 10 ^ n)
  exact_mod_cast le_trans h1 h2

theorem roundTo_le_one (n : ℕ) (q : ℚ) (h1 : q ≤ 1) : roundTo n q ≤ 1 := by
  unfold roundTo
  rw [div_le_one (by positivity)]
  have h2 : roundHalfEven (q * 10 ^ n) ≤ ⌈q * 10 ^ n⌉ := roundHalfEven_le_ceil _
  have h3 : ⌈q * 10 ^ n⌉ ≤ (10 : ℤ) ^ n := by
    apply Int.ceil_le.mpr
    push_cast
    nlinarith [pow_pos (by norm_num : (0:ℚ) < 10) n]
  calc (roundHalfEven (q * 10 ^ n) : ℚ) ≤ ((10 : ℤ) ^ n : ℤ) := by exact_mod_cast le_trans h2 h3
    _ = 10 ^ n := by push_cast; ring

/-! ### Feature-vector shape lemmas -/

theorem extract_attendance_features_length (sq : ℚ → ℚ) (a : List ℚ) :
    (extract_attendance_features sq a).length = 6 := by
  unfold extract_attendance_features
  split <;> rfl

theorem extract_marks_features_length (sq : ℚ → ℚ) (mh : List SubjectMarks) :
    (extract_marks_features sq mh).length = 8 := by
  unfold extract_marks_features
  split <;> rfl

theorem extract_load_features_length (subjects : List String) (semester : ℤ) :
    (extract_load_features subjects semester).length = 4 := rfl

theorem extract_engagement_features_length (a : List ℚ) (mh : List SubjectMarks) :
    (extract_engagement_features a mh).length = 2 := rfl

/-- **C1.** For every `StudentRecord` (any history lengths) and any
square-root function, `extract_features` returns exactly 22 values, and
when the attendance history has fewer than 2 observations the six
attendance slots are all `0`. -/
theorem claim_extract_features_dimension (sq : ℚ → ℚ) (r : StudentRecord) :
    (extract_features sq r).length = 22 ∧
      (r.attendance_history.length < 2 →
        (extract_features sq r).take 6 = [0, 0, 0, 0, 0, 0]) := by
  constructor
  · simp [extract_features, extract_attendance_features_length,
      extract_marks_features_length, extract_load_features_length,
      extract_engagement_features_length]
  · intro h
    unfold extract_features
    have ha : extract_attendance_features sq r.attendance_history = [0, 0, 0, 0, 0, 0] := by
      unfold extract_attendance_features
      rw [if_pos h]
    rw [ha]
    rfl

/-- Witness for C1 at a record with a single attendance observation. -/
theorem claim_extract_features_dimension_witness :
    (extract_features (fun q => q)
        ⟨[50], [], [], 1, 0⟩).length = 22 ∧
      (extract_features (fun q => q) ⟨[50], [], [], 1, 0⟩).take 6 = [0, 0, 0, 0, 0, 0] :=
  ⟨(claim_extract_features_dimension (fun q => q) ⟨[50], [], [], 1, 0⟩).1,
    (claim_extract_features_dimension (fun q => q) ⟨[50], [], [], 1, 0⟩).2 (by simp)⟩

/-- **C2 (counterexample).** At the calibrated probability
`p = 0.123456`, the stored `confidence` is `0.7531` (rounded to four
decimal places by `round(…, 4)`), not `|p − 0.5| × 2 = 0.753088`: the
claimed exact equality fails on the code. -/
theorem claim_prediction_fields_counterexample :
    (mkPredictionResult (123456 / 1000000)).confidence ≠
      |(123456 / 1000000 : ℚ) - 5 / 10| * 2 := by
  have habs : |(123456 / 1000000 : ℚ) - 1 / 2| * 2 = 753088 / 1000000 := by
    rw [abs_of_nonpos (by norm_num)]
    norm_num
  have h : (mkPredictionResult (123456 / 1000000)).confidence = 7531 / 10000 := by
    have hc : (mkPredictionResult (123456 / 1000000)).confidence =
        roundTo 4 (|(123456 / 1000000 : ℚ) - 1 / 2| * 2) := rfl
    rw [hc, habs]
    unfold roundTo roundHalfEven
    rw [show (753088 / 1000000 : ℚ) * 10 ^ 4 = 753088 / 100 by norm_num]
    rw [show ⌊(753088 / 100 : ℚ)⌋ = 7530 by norm_num]
    norm_num
  rw [h, show (5 / 10 : ℚ) = 1 / 2 by norm_num, habs]
  norm_num

/-- **C2 (amended).** For a calibrated probability `p ∈ [0, 1]`:
the stored confidence is `|p − 0.5| × 2` rounded half-to-even to 4
decimal places and lies in `[0, 1]`, is `0` at `p = 0.5` and `1` at
`p ∈ {0, 1}`; `risk_level` is `high` iff `p ≥ 0.70`, `medium` iff
`0.40 ≤ p < 0.70`, `low` iff `p < 0.40`; and the binary decision is `1`
iff `p ≥ 0.50`. -/
theorem claim_prediction_fields (p : ℚ) (h0 : 0 ≤ p) (h1 : p ≤ 1) :
    (mkPredictionResult p).confidence = roundTo 4 (|p - 5 / 10| * 2) ∧
    (0 ≤ (mkPredictionResult p).confidence ∧ (mkPredictionResult p).confidence ≤ 1) ∧
    (p = 5 / 10 → (mkPredictionResult p).confidence = 0) ∧
    ((p = 0 ∨ p = 1) → (mkPredictionResult p).confidence = 1) ∧
    ((mkPredictionResult p).risk_level = "high" ↔ 7 / 10 ≤ p) ∧
    ((mkPredictionResult p).risk_level = "medium" ↔ 4 / 10 ≤ p ∧ p < 7 / 10) ∧
    ((mkPredictionResult p).risk_level = "low" ↔ p < 4 / 10) ∧
    ((mkPredictionResult p).prediction = 1 ↔ 5 / 10 ≤ p) := by
  have hconf : (mkPredictionResult p).confidence = roundTo 4 (|p - 1 / 2| * 2) := rfl
  have habs0 : 0 ≤ |p - 1 / 2| * 2 := by positivity
  have habs1 : |p - 1 / 2| * 2 ≤ 1 := by
    have : |p - 1 / 2| ≤ 1 / 2 := abs_le.mpr ⟨by linarith, by linarith⟩
    linarith
  refine ⟨by norm_num [hconf], ⟨?_, ?_⟩, ?_, ?_, ?_, ?_, ?_, ?_⟩
  · rw [hconf]; exact roundTo_nonneg _ _ habs0
  · rw [hconf]; exact roundTo_le_one _ _ habs1
  · intro hp
    rw [hconf, hp]
    norm_num [roundTo, roundHalfEven]
  · intro hp
    have h12 : |(1 / 2 : ℚ)| = 1 / 2 := abs_of_nonneg (by norm_num)
    have habs : |p - 1 / 2| * 2 = 1 := by
      rcases hp with rfl | rfl <;> norm_num [h12]
    rw [hconf, habs]
    norm_num [roundTo, roundHalfEven]
  · unfold mkPredictionResult
    split_ifs with ha hb <;> simp_all
  · unfold mkPredictionResult
    split_ifs with ha hb <;> simp_all
  · unfold mkPredictionResult
    split_ifs with ha hb <;> simp_all <;> linarith
  · unfold mkPredictionResult
    split_ifs with ha hb hc <;> simp_all

/-- Witness for C2 at `p = 0.123`. -/
theorem claim_prediction_fields_witness :
    (mkPredictionResult (123 / 1000)).confidence = roundTo 4 (|(123 / 1000 : ℚ) - 5 / 10| * 2) ∧
    (0 ≤ (mkPredictionResult (123 / 1000)).confidence ∧
      (mkPredictionResult (123 / 1000)).confidence ≤ 1) ∧
    ((123 / 1000 : ℚ) = 5 / 10 → (mkPredictionResult (123 / 1000)).confidence = 0) ∧
    (((123 / 1000 : ℚ) = 0 ∨ (123 / 1000 : ℚ) = 1) →
      (mkPredictionResult (123 / 1000)).confidence = 1) ∧
    ((mkPredictionResult (123 / 1000)).risk_level = "high" ↔ 7 / 10 ≤ (123 / 1000 : ℚ)) ∧
    ((mkPredictionResult (123 / 1000)).risk_level = "medium" ↔
      4 / 10 ≤ (123 / 1000 : ℚ) ∧ (123 / 1000 : ℚ) < 7 / 10) ∧
    ((mkPredictionResult (123 / 1000)).risk_level = "low" ↔ (123 / 1000 : ℚ) < 4 / 10) ∧
    ((mkPredictionResult (123 / 1000)).prediction = 1 ↔ 5 / 10 ≤ (123 / 1000 : ℚ)) :=
  claim_prediction_fields (123 / 1000) (by norm_num) (by norm_num)

/-- **C6.** `predict` fails with the invalid-state error exactly when the
predictor is untrained; a trained predictor never raises it. -/
theorem claim_predict_invalid_state (m : RiskPredictor) (features : List ℚ) :
    (∃ msg, m.predict features = .error msg) ↔ m.is_trained = false := by
  cases h : m.is_trained <;> simp [RiskPredictor.predict, h]

/-- **C10.** On an untrained predictor, `get_feature_importance` returns
the empty mapping while `predict` raises the invalid-state error. -/
theorem claim_feature_importance_untrained (m : RiskPredictor) (features : List ℚ)
    (h : m.is_trained = false) :
    m.get_feature_importance = [] ∧ ∃ msg, m.predict features = .error msg := by
  refine ⟨?_, ?_⟩
  · simp [RiskPredictor.get_feature_importance, h]
  · simp [RiskPredictor.predict, h]

/-- Witness for C10 on a concrete untrained predictor state. -/
theorem claim_feature_importance_untrained_witness :
    (RiskPredictor.mk false (fun _ => 0) [1 / 2]).get_feature_importance = [] ∧
      ∃ msg, (RiskPredictor.mk false (fun _ => 0) [1 / 2]).predict [] = .error msg :=
  claim_feature_importance_untrained (RiskPredictor.mk false (fun _ => 0) [1 / 2]) [] rfl

/-! ### C7: marks features on records without usable mark histories -/

/-- **C7 (counterexample).** A record with one enrolled subject holding a
single score has no subject with ≥ 2 recorded scores, yet the eighth
marks slot (`len(marks_history)`) is `1`, not `0`: the eight marks slots
are not all zero. -/
theorem claim_marks_zero_counterexample :
    (∀ sm ∈ (StudentRecord.mk [] [⟨"Math", [15]⟩] [] 1 0).marks_history,
        sm.marks.length < 2) ∧
      ((extract_features (fun q => q) (StudentRecord.mk [] [⟨"Math", [15]⟩] [] 1 0)).drop 6).take 8
        ≠ [0, 0, 0, 0, 0, 0, 0, 0] := by
  constructor
  · intro sm hsm
    rcases List.mem_singleton.mp hsm with rfl
    norm_num
  · intro hcontra
    have h : ((extract_features (fun q => q)
        (StudentRecord.mk [] [⟨"Math", [15]⟩] [] 1 0)).drop 6).take 8 =
        [0, 0, 0, 0, 0, 0, 0, 1] := by
      norm_num [extract_features, extract_attendance_features, extract_marks_features,
        extract_load_features, extract_engagement_features, subjectStats]
    rw [h] at hcontra
    simp at hcontra

/-- **C7 (amended).** If no subject of the marks history has at least two
recorded scores, the first seven marks slots are all zero and the eighth
equals the number of subjects in the marks history (so all eight are zero
exactly when the marks history itself is empty). -/
theorem claim_marks_zero (sq : ℚ → ℚ) (r : StudentRecord)
    (h : ∀ sm ∈ r.marks_history, sm.marks.length < 2) :
    ((extract_features sq r).drop 6).take 8 =
      [0, 0, 0, 0, 0, 0, 0, (r.marks_history.length : ℚ)] := by
  have hstats : r.marks_history.filterMap (subjectStats sq) = [] := by
    rw [List.filterMap_eq_nil_iff]
    intro sm hsm
    unfold subjectStats
    rw [if_pos (h sm hsm)]
  have hm : extract_marks_features sq r.marks_history =
      [0, 0, 0, 0, 0, 0, 0, (r.marks_history.length : ℚ)] := by
    unfold extract_marks_features
    by_cases hmh : r.marks_history.isEmpty
    · rw [if_pos hmh]
      rw [List.isEmpty_iff.mp hmh]
      norm_num
    · rw [if_neg hmh]
      simp only [hstats]
      norm_num
  unfold extract_features
  rw [List.append_assoc, List.append_assoc, List.append_assoc]
  rw [show (6 : ℕ) = (extract_attendance_features sq r.attendance_history).length from
    (extract_attendance_features_length sq r.attendance_history).symm]
  rw [List.drop_left]
  rw [hm]
  rfl

/-- Witness for C7 at a record with one single-score subject. -/
theorem claim_marks_zero_witness :
    ((extract_features (fun q => q) (StudentRecord.mk [70] [⟨"Physics", [12]⟩] [] 2 1)).drop 6).take 8
      = [0, 0, 0, 0, 0, 0, 0, 1] := by
  have h := claim_marks_zero (fun q => q) (StudentRecord.mk [70] [⟨"Physics", [12]⟩] [] 2 1)
    (by intro sm hsm; rcases List.mem_singleton.mp hsm with rfl; norm_num)
  rw [h]
  norm_num

/-! ### C4 / C9: risk propagation invariants -/

theorem updateMax_le {B : ℚ} {acc : List (String × ℚ)} (hacc : ∀ kv ∈ acc, kv.2 ≤ B)
    {k : String} {v : ℚ} (hv : v ≤ B) : ∀ kv ∈ updateMax acc k v, kv.2 ≤ B := by
  induction acc with
  | nil =>
    intro kv hkv
    rcases List.mem_singleton.mp hkv with rfl
    exact hv
  | cons a rest ih =>
    intro kv hkv
    unfold updateMax at hkv
    split_ifs at hkv with hk
    · rcases List.mem_cons.mp hkv with rfl | htail
      · exact max_le (hacc a (List.mem_cons_self a rest)) hv
      · exact hacc kv (List.mem_cons_of_mem a htail)
    · rcases List.mem_cons.mp hkv with rfl | htail
      · exact hacc kv (List.mem_cons_self kv rest)
      · exact ih (fun x hx => hacc x (List.mem_cons_of_mem a hx)) kv htail

theorem successors_strength {g : KnowledgeGraph} {P : ℚ → Prop}
    (hedges : ∀ e ∈ g.edges, P e.2.2) {c : String} :
    ∀ s ∈ successors g c, P s.2 := by
  intro s hs
  unfold successors at hs
  obtain ⟨e, he, rfl⟩ := List.mem_map.mp hs
  exact hedges e (List.mem_filter.mp he).1

theorem stepSuccs_spec {r0 r : ℚ} (hr : 0 ≤ r) (hrr0 : r ≤ r0)
    {sucs : List (String × ℚ)} (hsucs : ∀ s ∈ sucs, 0 ≤ s.2 ∧ s.2 ≤ 1) :
    ∀ acc : List (String × ℚ), (∀ kv ∈ acc, kv.2 ≤ r0 * (8 / 10)) →
      (∀ kv ∈ (stepSuccs sucs r acc).1, kv.2 ≤ r0 * (8 / 10)) ∧
      (∀ q ∈ (stepSuccs sucs r acc).2, 0 ≤ q.2 ∧ q.2 ≤ r0) := by
  induction sucs with
  | nil =>
    intro acc hacc
    exact ⟨hacc, by simp [stepSuccs]⟩
  | cons s rest ih =>
    intro acc hacc
    obtain ⟨dep, st⟩ := s
    have hst := hsucs (dep, st) (List.mem_cons_self _ rest)
    have hprop0 : 0 ≤ r * st * (8 / 10) := by
      have := mul_nonneg hr hst.1
      linarith
    have hpropB : r * st * (8 / 10) ≤ r0 * (8 / 10) := by
      have h1 : r * st ≤ r := mul_le_of_le_one_right hr hst.2
      linarith
    have hacc1 := updateMax_le hacc hpropB (k := dep)
    have ihres := ih (fun x hx => hsucs x (List.mem_cons_of_mem _ hx)) _ hacc1
    constructor
    · intro kv hkv
      exact ihres.1 kv (by simpa [stepSuccs] using hkv)
    · intro q hq
      simp only [stepSuccs] at hq
      rcases List.mem_append.mp hq with hq1 | hq2
      · split_ifs at hq1
        · rcases List.mem_singleton.mp hq1 with rfl
          refine ⟨hprop0, ?_⟩
          have hr0 : 0 ≤ r0 := le_trans hr hrr0
          linarith
        · cases hq1
      · exact ihres.2 q hq2

theorem bfsPropagate_bound (g : KnowledgeGraph) (r0 : ℚ)
    (hedges : ∀ e ∈ g.edges, 0 ≤ e.2.2 ∧ e.2.2 ≤ 1) :
    ∀ visited queue acc,
      (∀ q ∈ queue, 0 ≤ q.2 ∧ q.2 ≤ r0) →
      (∀ kv ∈ acc, kv.2 ≤ r0 * (8 / 10)) →
      ∀ kv ∈ bfsPropagate g visited queue acc, kv.2 ≤ r0 * (8 / 10) := by
  intro visited queue acc
  induction visited, queue, acc using bfsPropagate.induct g with
  | case1 visited acc =>
    intro _ hacc
    simpa [bfsPropagate] using hacc
  | case2 visited acc c r rest hmem ih =>
    intro hq hacc
    rw [bfsPropagate, if_pos hmem]
    exact ih (fun x hx => hq x (List.mem_cons_of_mem _ hx)) hacc
  | case3 visited acc c r rest hmem next ih =>
    intro hq hacc
    have hc : 0 ≤ r ∧ r ≤ r0 := hq (c, r) (List.mem_cons_self _ rest)
    have hsucs : ∀ s ∈ successors g c, 0 ≤ s.2 ∧ s.2 ≤ 1 :=
      successors_strength (P := fun q => 0 ≤ q ∧ q ≤ 1) hedges
    have hstep := stepSuccs_spec hc.1 hc.2 hsucs acc hacc
    intro kv hkv
    rw [bfsPropagate, if_neg hmem] at hkv
    refine ih ?_ ?_ kv hkv
    · intro x hx
      rcases List.mem_append.mp hx with hx1 | hx2
      · exact hq x (List.mem_cons_of_mem _ hx1)
      · exact hstep.2 x hx2
    · exact hstep.1

/-- **C4.** For every graph, source course and source risk: the
propagated map never contains the source course as a key; and when all
edge strengths lie in `(0, 1]` and the source risk is a nonnegative
probability, every value of the map is at most `source_risk × 0.8`. -/
theorem claim_propagate_bounds (g : KnowledgeGraph) (source : String) (r : ℚ) :
    (∀ kv ∈ propagate_risk g source r, kv.1 ≠ source) ∧
    ((∀ e ∈ g.edges, 0 < e.2.2 ∧ e.2.2 ≤ 1) → 0 ≤ r →
      ∀ kv ∈ propagate_risk g source r, kv.2 ≤ r * (8 / 10)) := by
  constructor
  · intro kv hkv
    unfold propagate_risk at hkv
    split_ifs at hkv
    · simpa using (List.mem_filter.mp hkv).2
    · cases hkv
  · intro hedges hr kv hkv
    unfold propagate_risk at hkv
    split_ifs at hkv
    · have hmem := (List.mem_filter.mp hkv).1
      apply bfsPropagate_bound g r
        (fun e he => ⟨le_of_lt (hedges e he).1, (hedges e he).2⟩)
        [] [(source, r)] [] ?_ (by simp) kv hmem
      intro q hq
      rcases List.mem_singleton.mp hq with rfl
      exact ⟨hr, le_refl r⟩
    · cases hkv

/-- Witness for C4 on the default course graph, source risk 1. -/
theorem claim_propagate_bounds_witness :
    (∀ kv ∈ propagate_risk default_graph "Calculus I" 1, kv.1 ≠ "Calculus I") ∧
    (∀ kv ∈ propagate_risk default_graph "Calculus I" 1, kv.2 ≤ 1 * (8 / 10)) :=
  ⟨(claim_propagate_bounds default_graph "Calculus I" 1).1,
   (claim_propagate_bounds default_graph "Calculus I" 1).2
     (by intro e he; fin_cases he <;> norm_num) (by norm_num)⟩

theorem stepSuccs_nonpos {r : ℚ} (hr : r ≤ 0) {sucs : List (String × ℚ)}
    (hsucs : ∀ s ∈ sucs, 0 < s.2) :
    ∀ acc : List (String × ℚ), (∀ kv ∈ acc, kv.2 ≤ 0) →
      (∀ kv ∈ (stepSuccs sucs r acc).1, kv.2 ≤ 0) ∧ (stepSuccs sucs r acc).2 = [] := by
  induction sucs with
  | nil =>
    intro acc hacc
    exact ⟨hacc, by simp [stepSuccs]⟩
  | cons s rest ih =>
    intro acc hacc
    obtain ⟨dep, st⟩ := s
    have hst := hsucs (dep, st) (List.mem_cons_self _ rest)
    have hprop : r * st * (8 / 10) ≤ 0 := by
      have h1 : r * st ≤ 0 := mul_nonpos_of_nonpos_of_nonneg hr (le_of_lt hst)
      linarith
    have hacc1 := updateMax_le hacc hprop (k := dep)
    have ihres := ih (fun x hx => hsucs x (List.mem_cons_of_mem _ hx)) _ hacc1
    constructor
    · intro kv hkv
      exact ihres.1 kv (by simpa [stepSuccs] using hkv)
    · simp only [stepSuccs]
      rw [if_neg (by linarith), ihres.2]
      rfl

/-- **C9 (amended).** The propagated map is empty whenever the source
course has no successors (in particular for courses unknown to the
graph); when the source risk is `≤ 0` (so that
`source_risk × max-strength × 0.8 ≤ 0`), the map still lists the direct
successors of the source but all its values are `≤ 0` and no further
propagation happens. -/
theorem claim_propagate_empty (g : KnowledgeGraph) (source : String) (r : ℚ) :
    (successors g source = [] → propagate_risk g source r = []) ∧
    ((∀ e ∈ g.edges, 0 < e.2.2) → r ≤ 0 →
      ∀ kv ∈ propagate_risk g source r, kv.2 ≤ 0) := by
  constructor
  · intro hsucc
    unfold propagate_risk
    split_ifs with hmem
    · rw [bfsPropagate, if_neg (List.not_mem_nil source), hsucc]
      simp [stepSuccs, bfsPropagate]
    · rfl
  · intro hedges hr kv hkv
    unfold propagate_risk at hkv
    split_ifs at hkv
    · have hmem := (List.mem_filter.mp hkv).1
      rw [bfsPropagate, if_neg (List.not_mem_nil source)] at hmem
      have hsucs : ∀ s ∈ successors g source, 0 < s.2 :=
        successors_strength (P := fun q => 0 < q) hedges
      have hstep := stepSuccs_nonpos hr hsucs [] (by simp)
      simp only [List.nil_append] at hmem
      rw [hstep.2, bfsPropagate] at hmem
      exact hstep.1 kv hmem
    · cases hkv

/-- **C9 (counterexample).** On the one-edge graph `A → B` (strength
`0.9`) with source risk `0`, the claimed precondition
`source_risk × max-outgoing-strength × 0.8 ≤ 0` holds, yet the
propagated map is `{B: 0}`, not empty: zero-risk entries are still
inserted for direct successors. -/
theorem claim_propagate_empty_counterexample :
    ((0 : ℚ) * (9 / 10) * (8 / 10) ≤ 0) ∧
      propagate_risk ⟨[("A", "B", 9 / 10)]⟩ "A" 0 = [("B", 0)] := by
  refine ⟨by norm_num, ?_⟩
  have hmem : "A" ∈ nodesOf ⟨[("A", "B", 9 / 10)]⟩ := by
    simp [nodesOf]
  have hsucc : successors ⟨[("A", "B", 9 / 10)]⟩ "A" = [("B", 9 / 10)] := by
    simp [successors]
  unfold propagate_risk
  rw [if_pos hmem, bfsPropagate, if_neg (List.not_mem_nil "A"), hsucc]
  have hstep : stepSuccs [("B", 9 / 10)] 0 [] = ([("B", (0 : ℚ))], []) := by
    simp [stepSuccs, updateMax]
    norm_num
  rw [hstep]
  show List.filter (fun kv => decide (kv.1 ≠ "A"))
      (bfsPropagate ⟨[("A", "B", 9 / 10)]⟩ ["A"] [] [("B", 0)]) = [("B", 0)]
  rw [bfsPropagate]
  simp

/-- Witness for C9: a one-edge graph; source without successors gives the
empty map, and source risk 0 gives only nonpositive values. -/
theorem claim_propagate_empty_witness :
    (propagate_risk ⟨[("A", "B", 9 / 10)]⟩ "B" (1 / 2) = []) ∧
    (∀ kv ∈ propagate_risk ⟨[("A", "B", 9 / 10)]⟩ "A" 0, kv.2 ≤ 0) :=
  ⟨(claim_propagate_empty ⟨[("A", "B", 9 / 10)]⟩ "B" (1 / 2)).1
      (by simp [successors]),
   (claim_propagate_empty ⟨[("A", "B", 9 / 10)]⟩ "A" 0).2
      (by intro e he; fin_cases he; norm_num) le_rfl⟩

/-! ### C8: dependency depth -/

/-- The three-edge graph `A → B, B → C, A → C` used to separate
"longest path to the course" from what the code computes. -/
def depthExampleGraph : KnowledgeGraph :=
  ⟨[("A", "B", 9 / 10), ("B", "C", 8 / 10), ("A", "C", 7 / 10)]⟩

/-- **C8 (code bug).** On the graph `A → B, B → C, A → C` the longest
path from an ancestor to `C` is `A → B → C`, of length 2 (second
conjunct: that chain consists of edges of the graph), but
`calculate_dependency_depth` returns 1: the code takes, for each
ancestor, the **shortest** path length (`nx.shortest_path_length`) and
maximises that over ancestors, contradicting its own inline comment
("Find longest path to this course") and the specified longest-path
semantics. -/
theorem claim_dependency_depth_eval :
    calculate_dependency_depth depthExampleGraph "C" = 1 ∧
      chainInG depthExampleGraph ["A", "B", "C"] = true := by
  constructor
  · decide
  · decide

/-! ### C3: the ranking contract of `simulate_interventions` -/

theorem mem_insertDescBy {key : α → ℚ} {x z : α} {l : List α} :
    z ∈ insertDescBy key x l ↔ z = x ∨ z ∈ l := by
  induction l with
  | nil => simp [insertDescBy]
  | cons y ys ih =>
    unfold insertDescBy
    split_ifs with h
    · simp [List.mem_cons]
    · simp only [List.mem_cons, ih]
      tauto

theorem sorted_insertDescBy {key : α → ℚ} {x : α} {l : List α}
    (h : l.Pairwise (fun a b => key b ≤ key a)) :
    (insertDescBy key x l).Pairwise (fun a b => key b ≤ key a) := by
  induction l with
  | nil => simp [insertDescBy]
  | cons y ys ih =>
    rcases List.pairwise_cons.mp h with ⟨hy, hys⟩
    unfold insertDescBy
    split_ifs with hlt
    · refine List.pairwise_cons.mpr ⟨?_, h⟩
      intro b hb
      rcases List.mem_cons.mp hb with rfl | hb2
      · exact le_of_lt hlt
      · exact le_trans (hy b hb2) (le_of_lt hlt)
    · refine List.pairwise_cons.mpr ⟨?_, ih hys⟩
      intro b hb
      rcases mem_insertDescBy.mp hb with rfl | hb2
      · exact not_lt.mp hlt
      · exact hy b hb2

theorem sorted_sortDescBy (key : α → ℚ) (l : List α) :
    (sortDescBy key l).Pairwise (fun a b => key b ≤ key a) := by
  suffices h : ∀ acc : List α, acc.Pairwise (fun a b => key b ≤ key a) →
      (l.foldl (fun acc x => insertDescBy key x acc) acc).Pairwise
        (fun a b => key b ≤ key a) from h [] (by simp)
  induction l with
  | nil => intro acc hacc; simpa using hacc
  | cons x xs ih =>
    intro acc hacc
    exact ih _ (sorted_insertDescBy hacc)

theorem mem_sortDescBy {key : α → ℚ} {l : List α} {z : α} :
    z ∈ sortDescBy key l ↔ z ∈ l := by
  suffices h : ∀ acc : List α,
      (z ∈ l.foldl (fun acc x => insertDescBy key x acc) acc ↔ z ∈ acc ∨ z ∈ l) by
    simpa using h []
  induction l with
  | nil => intro acc; simp
  | cons x xs ih =>
    intro acc
    rw [List.foldl_cons, ih, mem_insertDescBy]
    simp only [List.mem_cons]
    tauto

theorem foldl_simulateStep_inv (proba : List ℚ → ℚ) (features : List ℚ) (iv : Intervention)
    (cr : ℚ) :
    ∀ (deltas S : List ℚ) (st : ℚ × Option InterventionResult),
      LoopInv proba features iv cr S st →
      LoopInv proba features iv cr (S ++ deltas)
        (deltas.foldl (simulateStep proba features iv cr) st) := by
  intro deltas
  induction deltas with
  | nil =>
    intro S st h
    simpa using h
  | cons δ rest ih =>
    intro S st h
    have hstep : LoopInv proba features iv cr (S ++ [δ])
        (simulateStep proba features iv cr st δ) := by
      have hrr : rawRiskReduction proba features iv cr δ =
          cr - (mkPredictionResult
            (proba (applyDelta features iv.feature_indices δ))).failure_probability := rfl
      unfold simulateStep
      dsimp only
      split_ifs with hneg hbetter
      · -- no improvement at δ: state unchanged, δ recorded as non-improving
        rcases h with ⟨hst, hall⟩ | ⟨δ0, hδ0, himp, hst, hmax⟩
        · left
          refine ⟨hst, ?_⟩
          intro x hx
          rcases List.mem_append.mp hx with hx1 | hx2
          · exact hall x hx1
          · rcases List.mem_singleton.mp hx2 with rfl
            rw [hrr]; exact hneg
        · right
          refine ⟨δ0, List.mem_append_left _ hδ0, himp, hst, ?_⟩
          intro x hx hximp
          rcases List.mem_append.mp hx with hx1 | hx2
          · exact hmax x hx1 hximp
          · rcases List.mem_singleton.mp hx2 with rfl
            exact absurd hximp (by rw [hrr]; exact not_lt.mpr hneg)
      · -- improvement at δ that beats the current best: state becomes δ's scenario
        right
        push_neg at hneg
        refine ⟨δ, List.mem_append_right _ (List.mem_singleton_self δ), by rw [hrr]; exact hneg,
          ?_, ?_⟩
        · rfl
        · intro x hx hximp
          rcases List.mem_append.mp hx with hx1 | hx2
          · rcases h with ⟨hst, hall⟩ | ⟨δ0, hδ0, himp, hst, hmax⟩
            · exact absurd hximp (not_lt.mpr (hall x hx1))
            · have h1 := hmax x hx1 hximp
              have h2 : st.1 = rawEffectiveness proba features iv cr δ0 := by rw [hst]
              have h3 : st.1 <
                  (cr - (mkPredictionResult
                    (proba (applyDelta features iv.feature_indices δ))).failure_probability) /
                  (iv.effort_cost : ℚ) := hbetter
              have h4 : rawEffectiveness proba features iv cr δ =
                  (cr - (mkPredictionResult
                    (proba (applyDelta features iv.feature_indices δ))).failure_probability) /
                  (iv.effort_cost : ℚ) := rfl
              rw [h4]
              rw [h2] at h3
              linarith
          · rcases List.mem_singleton.mp hx2 with rfl
            exact le_refl _
      · -- improvement at δ that does not beat the current best: state unchanged
        push_neg at hneg
        rcases h with ⟨hst, hall⟩ | ⟨δ0, hδ0, himp, hst, hmax⟩
        · exfalso
          apply hbetter
          rw [hst]
          have heffnn : (0 : ℚ) ≤
              (cr - (mkPredictionResult
                (proba (applyDelta features iv.feature_indices δ))).failure_probability) /
              (iv.effort_cost : ℚ) :=
            div_nonneg (le_of_lt hneg) (by positivity)
          calc ((-1 : ℚ), (none : Option InterventionResult)).1 = -1 := rfl
            _ < 0 := by norm_num
            _ ≤ _ := heffnn
        · right
          refine ⟨δ0, List.mem_append_left _ hδ0, himp, hst, ?_⟩
          intro x hx hximp
          rcases List.mem_append.mp hx with hx1 | hx2
          · exact hmax x hx1 hximp
          · rcases List.mem_singleton.mp hx2 with rfl
            have h2 : st.1 = rawEffectiveness proba features iv cr δ0 := by rw [hst]
            have h3 := not_lt.mp hbetter
            rw [h2] at h3
            exact h3
    have hres := ih (S ++ [δ]) _ hstep
    simpa [List.append_assoc] using hres

theorem simulate_intervention_spec (proba : List ℚ → ℚ) (features : List ℚ) (iv : Intervention)
    (cr : ℚ) :
    (∀ res, simulate_intervention proba features iv cr = some res →
      ∃ δ ∈ iv.delta_range, 0 < rawRiskReduction proba features iv cr δ ∧
        res = scenarioAt proba features iv cr δ ∧
        ∀ δ2 ∈ iv.delta_range, 0 < rawRiskReduction proba features iv cr δ2 →
          rawEffectiveness proba features iv cr δ2 ≤
            rawEffectiveness proba features iv cr δ) ∧
    (simulate_intervention proba features iv cr = none ↔
      ∀ δ ∈ iv.delta_range, rawRiskReduction proba features iv cr δ ≤ 0) := by
  have hinv := foldl_simulateStep_inv proba features iv cr iv.delta_range [] (-1, none)
    (Or.inl ⟨rfl, by simp⟩)
  rw [List.nil_append] at hinv
  unfold simulate_intervention
  constructor
  · intro res hres
    rcases hinv with ⟨hst, _⟩ | ⟨δ, hδ, himp, hst, hmax⟩
    · rw [hst] at hres
      cases hres
    · rw [hst] at hres
      refine ⟨δ, hδ, himp, ?_, hmax⟩
      exact (Option.some_injective _ hres).symm
  · constructor
    · intro hnone
      rcases hinv with ⟨_, hall⟩ | ⟨δ, hδ, himp, hst, _⟩
      · exact hall
      · rw [hst] at hnone
        cases hnone
    · intro hall
      rcases hinv with ⟨hst, _⟩ | ⟨δ, hδ, himp, _, _⟩
      · rw [hst]
      · exact absurd himp (not_lt.mpr (hall δ hδ))

/-- **C3 (counterexample).** With the (trained-model) probability
constantly `0.5` and current risk `0.500001`, every magnitude improves
the raw risk by `0.000001 > 0`, yet all three returned results carry
`risk_reduction = 0.0` — the stored field is rounded to 4 decimal places
by `round(risk_reduction, 4)`, so "every returned result has
risk_reduction > 0" fails on the stored results. -/
theorem claim_simulate_ranking_counterexample :
    (simulate_interventions (fun q => q) (fun _ => 1 / 2) (StudentRecord.mk [] [] [] 1 0)
        (500001 / 1000000)).map (fun res => res.risk_reduction) = [0, 0, 0] := by
  have hhalf : mkPredictionResult (1 / 2) = ⟨1 / 2, 0, "medium", 1⟩ := by
    unfold mkPredictionResult roundTo roundHalfEven
    norm_num
  have h2 : (500001 / 1000000 : ℚ) - 1 / 2 = 1 / 1000000 := by norm_num
  have hF1 : ¬((1 / 1000000 : ℚ) ≤ 0) := by norm_num
  have hF2 : (-1 : ℚ) < 1 / 1000000 / 2 := by norm_num
  have hF3 : (-1 : ℚ) < 1 / 1000000 / 3 := by norm_num
  have hH5 : roundTo 4 ((1 : ℚ) / 1000000 / 2) = 0 := by
    unfold roundTo roundHalfEven
    norm_num
  have hH6 : roundTo 4 ((1 : ℚ) / 1000000 / 3) = 0 := by
    unfold roundTo roundHalfEven
    norm_num
  have hH7 : roundTo 4 ((1 : ℚ) / 1000000) = 0 := by
    unfold roundTo roundHalfEven
    norm_num
  simp only [simulate_interventions, simulate_intervention, interventions, simulateStep,
    mkInterventionResult, sortDescBy, insertDescBy, List.filterMap_cons, List.filterMap_nil,
    List.foldl_cons, List.foldl_nil, List.map_cons, List.map_nil, List.take_succ_cons,
    List.take_zero, Nat.cast_ofNat, hhalf, h2, hF1, hF2, hF3, hH5, hH6, hH7,
    lt_self_iff_false, if_true, if_false, ite_true, ite_false]

/-- **C3 (amended).** For every student state and current risk,
`simulate` returns at most 3 results, sorted by `effectiveness_score`
descending; every returned result is the scenario of a magnitude whose
**raw** risk reduction is strictly positive (the stored `risk_reduction`
field is that value rounded to 4 decimals, hence only guaranteed `≥ 0`),
and that magnitude maximises raw effectiveness
(= risk_reduction / effort_cost) among the improving magnitudes of its
intervention; interventions with no improving magnitude contribute no
result. -/
theorem claim_simulate_ranking (sq : ℚ → ℚ) (proba : List ℚ → ℚ) (r : StudentRecord) (cr : ℚ) :
    (simulate_interventions sq proba r cr).length ≤ 3 ∧
    (simulate_interventions sq proba r cr).Pairwise
      (fun a b => b.effectiveness_score ≤ a.effectiveness_score) ∧
    ∀ res ∈ simulate_interventions sq proba r cr,
      ∃ iv ∈ interventions, ∃ δ ∈ iv.delta_range,
        0 < rawRiskReduction proba (extract_features sq r) iv cr δ ∧
        res = scenarioAt proba (extract_features sq r) iv cr δ ∧
        0 ≤ res.risk_reduction ∧
        ∀ δ2 ∈ iv.delta_range, 0 < rawRiskReduction proba (extract_features sq r) iv cr δ2 →
          rawEffectiveness proba (extract_features sq r) iv cr δ2 ≤
            rawEffectiveness proba (extract_features sq r) iv cr δ := by
  refine ⟨?_, ?_, ?_⟩
  · unfold simulate_interventions
    dsimp only
    exact List.length_take_le 3 _
  · unfold simulate_interventions
    dsimp only
    exact List.Pairwise.sublist (List.take_sublist _ _)
      (sorted_sortDescBy (fun res : InterventionResult => res.effectiveness_score) _)
  · intro res hres
    unfold simulate_interventions at hres
    dsimp only at hres
    have h1 := List.mem_of_mem_take hres
    have h2 := mem_sortDescBy.mp h1
    obtain ⟨iv, hiv, hsome⟩ := List.mem_filterMap.mp h2
    obtain ⟨δ, hδ, himp, heq, hmax⟩ :=
      (simulate_intervention_spec proba (extract_features sq r) iv cr).1 res hsome
    refine ⟨iv, hiv, δ, hδ, himp, heq, ?_, hmax⟩
    rw [heq]
    exact roundTo_nonneg 4 _ (le_of_lt himp)

/-! ### C5: minimal safe path -/

theorem scanForSolution_first (target : ℚ) :
    ∀ (pre : List InterventionResult) (res : InterventionResult) (post : List InterventionResult),
      (∀ x ∈ pre, target < x.predicted_risk) → res.predicted_risk ≤ target →
      scanForSolution target (pre ++ res :: post) = some res := by
  intro pre
  induction pre with
  | nil =>
    intro res post _ hres
    show scanForSolution target (res :: post) = some res
    unfold scanForSolution
    rw [if_pos hres]
  | cons p ps ih =>
    intro res post hpre hres
    have hp : target < p.predicted_risk := hpre p (List.mem_cons_self p ps)
    show scanForSolution target (p :: (ps ++ res :: post)) = some res
    unfold scanForSolution
    rw [if_neg (not_le.mpr hp)]
    exact ih res post (fun x hx => hpre x (List.mem_cons_of_mem p hx)) hres

theorem scanForSolution_none (target : ℚ) :
    ∀ l : List InterventionResult, (∀ x ∈ l, target < x.predicted_risk) →
      scanForSolution target l = none := by
  intro l
  induction l with
  | nil => intro _; rfl
  | cons p ps ih =>
    intro hall
    unfold scanForSolution
    rw [if_neg (not_le.mpr (hall p (List.mem_cons_self p ps)))]
    exact ih (fun x hx => hall x (List.mem_cons_of_mem p hx))

/-- **C5.** `find_minimal_safe_path` reports "already safe" — without
invoking `simulate_interventions` (call count 0) — whenever the current
predicted probability is at most the target; otherwise it invokes
`simulate_interventions` once and (i) reports the first ranked
intervention whose predicted probability is at most the target as a
complete single-intervention solution, and (ii) when no returned
intervention suffices, reports the best-ranked one as a partial solution
carrying the explicit caveat note. -/
theorem claim_find_minimal_safe_path (sq : ℚ → ℚ) (proba : List ℚ → ℚ) (r : StudentRecord)
    (target : ℚ) :
    ((mkPredictionResult (proba (extract_features sq r))).failure_probability ≤ target →
      find_minimal_safe_path sq proba r target =
        (.alreadySafe
          (mkPredictionResult (proba (extract_features sq r))).failure_probability target, 0)) ∧
    (∀ cr, cr = (mkPredictionResult (proba (extract_features sq r))).failure_probability →
      ¬cr ≤ target →
      (∀ (pre : List InterventionResult) res (post : List InterventionResult),
        simulate_interventions sq proba r cr = pre ++ res :: post →
        (∀ x ∈ pre, target < x.predicted_risk) → res.predicted_risk ≤ target →
        find_minimal_safe_path sq proba r target =
          (.solutionFound [res] res.predicted_risk res.effort_level, 1)) ∧
      (∀ best rest, simulate_interventions sq proba r cr = best :: rest →
        (∀ x ∈ simulate_interventions sq proba r cr, target < x.predicted_risk) →
        find_minimal_safe_path sq proba r target =
          (.partSolution [best] best.predicted_risk best.effort_level
            "Multiple interventions may be needed to reach target safety level", 1))) := by
  constructor
  · intro hsafe
    unfold find_minimal_safe_path
    dsimp only
    rw [if_pos hsafe]
  · intro cr hcr hgt
    constructor
    · intro pre res post heq hpre hres
      have hscan := scanForSolution_first target pre res post hpre hres
      unfold find_minimal_safe_path
      dsimp only
      rw [← hcr, if_neg hgt, heq, hscan]
    · intro best rest heq hall
      have hscan := scanForSolution_none target _ hall
      rw [heq] at hscan
      unfold find_minimal_safe_path
      dsimp only
      rw [← hcr, if_neg hgt, heq, hscan]

theorem abs_mul_two_of_ge (p : ℚ) (h : 1 / 2 ≤ p) : |p - 1 / 2| * 2 = 2 * p - 1 := by
  rw [abs_of_nonneg (by linarith)]
  ring

theorem abs_mul_two_of_le (p : ℚ) (h : p ≤ 1 / 2) : |p - 1 / 2| * 2 = 1 - 2 * p := by
  rw [abs_of_nonpos (by linarith)]
  ring

theorem extract_features_empty_record :
    extract_features (fun q => q) (StudentRecord.mk [] [] [] 1 0) =
      [0, 0, 0, 0, 0, 0, 0, 0, 0, 0, 0, 0, 0, 0,
        0, 1 / 8, 0, 7 / 10, 0, 0, 1 / 2, 0] := by
  norm_num [extract_features, extract_attendance_features, extract_marks_features,
    extract_load_features, extract_engagement_features]

theorem mkPredictionResult_eval_90 :
    mkPredictionResult (9 / 10) = ⟨9 / 10, 4 / 5, "high", 1⟩ := by
  unfold mkPredictionResult
  rw [abs_mul_two_of_ge _ (by norm_num)]
  unfold roundTo roundHalfEven
  norm_num

theorem mkPredictionResult_eval_85 :
    mkPredictionResult (17 / 20) = ⟨17 / 20, 7 / 10, "high", 1⟩ := by
  unfold mkPredictionResult
  rw [abs_mul_two_of_ge _ (by norm_num)]
  unfold roundTo roundHalfEven
  norm_num

theorem mkPredictionResult_eval_80 :
    mkPredictionResult (4 / 5) = ⟨4 / 5, 3 / 5, "high", 1⟩ := by
  unfold mkPredictionResult
  rw [abs_mul_two_of_ge _ (by norm_num)]
  unfold roundTo roundHalfEven
  norm_num

theorem mkPredictionResult_eval_75 :
    mkPredictionResult (3 / 4) = ⟨3 / 4, 1 / 2, "high", 1⟩ := by
  unfold mkPredictionResult
  rw [abs_mul_two_of_ge _ (by norm_num)]
  unfold roundTo roundHalfEven
  norm_num

theorem mkPredictionResult_eval_70 :
    mkPredictionResult (7 / 10) = ⟨7 / 10, 2 / 5, "high", 1⟩ := by
  unfold mkPredictionResult
  rw [abs_mul_two_of_ge _ (by norm_num)]
  unfold roundTo roundHalfEven
  norm_num

/-- On the empty demo record with model `p(v) = 0.9 − v₀` (first feature
slot), only "Improve Attendance" improves the risk; its best magnitude is
`0.20`, taking the predicted risk to `0.7`. -/
theorem simulate_eval_head_proba :
    simulate_interventions (fun q => q) (fun v => 9 / 10 - v.headD 0)
      (StudentRecord.mk [] [] [] 1 0) (9 / 10) =
      [mkInterventionResult
        ⟨"Improve Attendance", "Attend {delta} more classes consistently", [0, 1],
          [5 / 100, 10 / 100, 15 / 100, 20 / 100], 2⟩
        (20 / 100) (9 / 10) (7 / 10) (1 / 5) (1 / 10) (2 / 5)] := by
  have hHa : ∀ δ : ℚ,
      (applyDelta [0, 0, 0, 0, 0, 0, 0, 0, 0, 0, 0, 0, 0, 0, 0, 1 / 8, 0, 7 / 10, 0, 0, 1 / 2, 0]
        [0, 1] δ).headD 0 = npClip (0 + δ) 0 1 := fun δ => rfl
  have hHb : ∀ δ : ℚ,
      (applyDelta [0, 0, 0, 0, 0, 0, 0, 0, 0, 0, 0, 0, 0, 0, 0, 1 / 8, 0, 7 / 10, 0, 0, 1 / 2, 0]
        [8, 9] δ).headD 0 = 0 := fun δ => rfl
  have hHc : ∀ δ : ℚ,
      (applyDelta [0, 0, 0, 0, 0, 0, 0, 0, 0, 0, 0, 0, 0, 0, 0, 1 / 8, 0, 7 / 10, 0, 0, 1 / 2, 0]
        [7, 13] δ).headD 0 = 0 := fun δ => rfl
  have hHd : ∀ δ : ℚ,
      (applyDelta [0, 0, 0, 0, 0, 0, 0, 0, 0, 0, 0, 0, 0, 0, 0, 1 / 8, 0, 7 / 10, 0, 0, 1 / 2, 0]
        [20] δ).headD 0 = 0 := fun δ => rfl
  have hc1 : npClip (0 + 5 / 100) 0 1 = 1 / 20 := by norm_num [npClip]
  have hc2 : npClip (0 + 10 / 100) 0 1 = 1 / 10 := by norm_num [npClip]
  have hc3 : npClip (0 + 15 / 100) 0 1 = 3 / 20 := by norm_num [npClip]
  have hc4 : npClip (0 + 20 / 100) 0 1 = 1 / 5 := by norm_num [npClip]
  have hs1 : (9 / 10 : ℚ) - 1 / 20 = 17 / 20 := by norm_num
  have hs2 : (9 / 10 : ℚ) - 1 / 10 = 4 / 5 := by norm_num
  have hs3 : (9 / 10 : ℚ) - 3 / 20 = 3 / 4 := by norm_num
  have hs4 : (9 / 10 : ℚ) - 1 / 5 = 7 / 10 := by norm_num
  have hs0 : (9 / 10 : ℚ) - 0 = 9 / 10 := by norm_num
  have hrr1 : (9 / 10 : ℚ) - 17 / 20 = 1 / 20 := by norm_num
  have hrr2 : (9 / 10 : ℚ) - 4 / 5 = 1 / 10 := by norm_num
  have hrr3 : (9 / 10 : ℚ) - 3 / 4 = 3 / 20 := by norm_num
  have hrr4 : (9 / 10 : ℚ) - 7 / 10 = 1 / 5 := by norm_num
  have hrr0 : (9 / 10 : ℚ) - 9 / 10 = 0 := by norm_num
  have heff1 : (1 / 20 : ℚ) / 2 = 1 / 40 := by norm_num
  have heff2 : (1 / 10 : ℚ) / 2 = 1 / 20 := by norm_num
  have heff3 : (3 / 20 : ℚ) / 2 = 3 / 40 := by norm_num
  have heff4 : (1 / 5 : ℚ) / 2 = 1 / 10 := by norm_num
  have hn1 : ¬((1 / 20 : ℚ) ≤ 0) := by norm_num
  have hn2 : ¬((1 / 10 : ℚ) ≤ 0) := by norm_num
  have hn3 : ¬((3 / 20 : ℚ) ≤ 0) := by norm_num
  have hn4 : ¬((1 / 5 : ℚ) ≤ 0) := by norm_num
  have hl1 : (-1 : ℚ) < 1 / 40 := by norm_num
  have hl2 : (1 / 40 : ℚ) < 1 / 20 := by norm_num
  have hl3 : (1 / 20 : ℚ) < 3 / 40 := by norm_num
  have hl4 : (3 / 40 : ℚ) < 1 / 10 := by norm_num
  have hz : (9 / 10 : ℚ) - 9 / 10 ≤ 0 := by norm_num
  simp only [simulate_interventions, simulate_intervention, interventions, simulateStep,
    extract_features_empty_record, List.filterMap_cons, List.filterMap_nil, List.foldl_cons,
    List.foldl_nil, sortDescBy, insertDescBy, List.take_succ_cons, List.take_zero,
    List.take_nil, Nat.cast_ofNat, hHa, hHb, hHc, hHd, hc1, hc2, hc3, hc4,
    hs1, hs2, hs3, hs4, hs0, hrr1, hrr2, hrr3, hrr4, hrr0,
    heff1, heff2, heff3, heff4, hn1, hn2, hn3, hn4, hl1, hl2, hl3, hl4, hz,
    mkPredictionResult_eval_90, mkPredictionResult_eval_85, mkPredictionResult_eval_80,
    mkPredictionResult_eval_75, mkPredictionResult_eval_70,
    le_refl, if_true, if_false, ite_true, ite_false]

/-- Witness for C5: on the empty demo record, (a) a constant model at
risk 0.2 with target 0.3 reports "already safe" without running the
simulation; with the model `p(v) = 0.9 − v₀`, (b) target 0.7 is reached
by the ranked "Improve Attendance" result (complete solution), and
(c) target 0.3 is not reached by any returned result, so that same
best-ranked result is reported as a partial solution with the caveat. -/
theorem claim_find_minimal_safe_path_witness :
    (find_minimal_safe_path (fun q => q) (fun _ => 1 / 5) (StudentRecord.mk [] [] [] 1 0)
        (3 / 10) = (.alreadySafe (1 / 5) (3 / 10), 0)) ∧
    (∃ res, find_minimal_safe_path (fun q => q) (fun v => 9 / 10 - v.headD 0)
        (StudentRecord.mk [] [] [] 1 0) (7 / 10) = (.solutionFound [res] (7 / 10) 2, 1)) ∧
    (∃ res, find_minimal_safe_path (fun q => q) (fun v => 9 / 10 - v.headD 0)
        (StudentRecord.mk [] [] [] 1 0) (3 / 10) =
      (.partSolution [res] (7 / 10) 2
        "Multiple interventions may be needed to reach target safety level", 1)) := by
  have hp1 : (mkPredictionResult ((fun _ : List ℚ => (1 : ℚ) / 5)
      (extract_features (fun q => q) (StudentRecord.mk [] [] [] 1 0)))).failure_probability
      = 1 / 5 := by
    show (mkPredictionResult (1 / 5)).failure_probability = 1 / 5
    unfold mkPredictionResult roundTo roundHalfEven
    norm_num
  have hcr : (mkPredictionResult ((fun v : List ℚ => 9 / 10 - v.headD 0)
      (extract_features (fun q => q) (StudentRecord.mk [] [] [] 1 0)))).failure_probability
      = 9 / 10 := by
    show (mkPredictionResult (9 / 10 -
      (extract_features (fun q => q) (StudentRecord.mk [] [] [] 1 0)).headD 0)).failure_probability
      = 9 / 10
    rw [extract_features_empty_record]
    norm_num [mkPredictionResult_eval_90]
  have hpred : (mkInterventionResult
      ⟨"Improve Attendance", "Attend {delta} more classes consistently", [0, 1],
        [5 / 100, 10 / 100, 15 / 100, 20 / 100], 2⟩
      (20 / 100) (9 / 10) (7 / 10) (1 / 5) (1 / 10) (2 / 5)).predicted_risk = 7 / 10 := by
    unfold mkInterventionResult roundTo roundHalfEven
    norm_num
  refine ⟨?_, ?_, ?_⟩
  · have ha := (claim_find_minimal_safe_path (fun q => q) (fun _ => 1 / 5)
      (StudentRecord.mk [] [] [] 1 0) (3 / 10)).1 (by rw [hp1]; norm_num)
    rw [hp1] at ha
    exact ha
  · refine ⟨mkInterventionResult
      ⟨"Improve Attendance", "Attend {delta} more classes consistently", [0, 1],
        [5 / 100, 10 / 100, 15 / 100, 20 / 100], 2⟩
      (20 / 100) (9 / 10) (7 / 10) (1 / 5) (1 / 10) (2 / 5), ?_⟩
    have hb := ((claim_find_minimal_safe_path (fun q => q) (fun v => 9 / 10 - v.headD 0)
        (StudentRecord.mk [] [] [] 1 0) (7 / 10)).2 (9 / 10) hcr.symm (by norm_num)).1
      [] _ [] simulate_eval_head_proba (by simp) (le_of_eq hpred)
    rw [hb, hpred]
    rfl
  · refine ⟨mkInterventionResult
      ⟨"Improve Attendance", "Attend {delta} more classes consistently", [0, 1],
        [5 / 100, 10 / 100, 15 / 100, 20 / 100], 2⟩
      (20 / 100) (9 / 10) (7 / 10) (1 / 5) (1 / 10) (2 / 5), ?_⟩
    have hc := ((claim_find_minimal_safe_path (fun q => q) (fun v => 9 / 10 - v.headD 0)
        (StudentRecord.mk [] [] [] 1 0) (3 / 10)).2 (9 / 10) hcr.symm (by norm_num)).2
      _ [] simulate_eval_head_proba ?_
    · rw [hc, hpred]
      rfl
    · rw [simulate_eval_head_proba]
      intro x hx
      rcases List.mem_singleton.mp hx with rfl
      rw [hpred]
      norm_num

end EduPath
